import Mathlib

/-!
Shallow embedding of `server.js` of the messenger-translator repository:
the express signature-verification callback, the GET/POST `/webhook`
routes, and the `receivedMessage` / `receivedPostback` event handlers.
Strings are Lean `String` (a list of characters); JavaScript string
operations used by the source (split on a character or a substring,
case-insensitive regex matching) are embedded as executable functions
below.
-/

namespace MessengerTranslator

/-- ASCII lower-casing of one character, as used for the `/i` regex flag
on the ASCII patterns occurring in `server.js`. -/
def asciiLower (c : Char) : Char :=
  if 'A' ≤ c ∧ c ≤ 'Z' then Char.ofNat (c.toNat + 32) else c

/-- Lower-case a character list. -/
def lowerData (s : List Char) : List Char := s.map asciiLower

/-- JavaScript line terminators, which the regex `.` never matches. -/
def isLineTerminator (c : Char) : Bool :=
  c = '\n' || c = '\r' || c = '\u2028' || c = '\u2029'

/-- JavaScript `s.split(c)` for a single-character separator `c`
(used by the source as `signature.split('=')`). -/
def splitOnChar (c : Char) : List Char → List (List Char)
  | [] => [[]]
  | a :: rest =>
    let r := splitOnChar c rest
    if a = c then [] :: r
    else (a :: r.headD []) :: r.tail

/-- Fuel-driven core of JavaScript `s.split(sep)` for a non-empty
string separator (used by the source as `title.split('--language ')`).
The fuel is always the length of the scanned list, so the fuel-exhausted
branch is unreachable. -/
def jsSplitGo (sep : List Char) : Nat → List Char → List (List Char)
  | _, [] => [[]]
  | 0, s => [s]
  | fuel + 1, c :: rest =>
    if sep.isPrefixOf (c :: rest) then
      [] :: jsSplitGo sep fuel (List.drop sep.length (c :: rest))
    else
      match jsSplitGo sep fuel rest with
      | [] => [[c]]
      | h :: t => (c :: h) :: t

/-- JavaScript `s.split(sep)` for a non-empty string separator. -/
def jsSplit (sep s : List Char) : List (List Char) :=
  jsSplitGo sep s.length s

/-! ## Data model -/

/-- `event.sender` of a messaging event. -/
structure Sender where
  id : String
deriving DecidableEq

/-- `event.message`: optional free text, and whether the (truthy)
`attachments` field is present. -/
structure Message where
  text : Option String
  attachments : Bool
deriving DecidableEq

/-- `event.postback`: a payload string and a button title. -/
structure Postback where
  payload : String
  title : String
deriving DecidableEq

/-- One messaging event of a webhook delivery; `message` and `postback`
are each optional, mirroring the `if (event.message) ... else if
(event.postback)` classification of the source. -/
structure MessagingEvent where
  sender : Sender
  message : Option Message
  postback : Option Postback
deriving DecidableEq

/-- One `entry` element of a webhook delivery. -/
structure Entry where
  messaging : List MessagingEvent
deriving DecidableEq

/-- The parsed JSON body of a POST `/webhook` delivery. -/
structure WebhookData where
  object : String
  entry : List Entry
deriving DecidableEq

/-- A user-preference record as used by `server.js`: reply target
`psid`, UI `locale`, translation target `language`. -/
structure User where
  psid : String
  locale : String
  language : String
deriving DecidableEq

/-- One `res.status(s).send(b)` attempt; `body = none` models sending
`undefined`. -/
structure HttpResponse where
  status : Nat
  body : Option String
deriving DecidableEq

/-- A JavaScript runtime error raised while an event handler runs. -/
inductive RuntimeError where
  | typeError (msg : String)
deriving DecidableEq

/-- One `logger.write(...)` call. -/
inductive LogEntry where
  | line (s : String)
  | eventObj (e : MessagingEvent)
  | dataObj (d : WebhookData)
  | params (mode verifyToken challenge : Option String)
  | reqBody
  | errorObj (e : RuntimeError)
deriving DecidableEq

/-- An observable side effect of an event handler, in execution order. -/
inductive Effect where
  | send (psid : String) (text : Option String) (action : Option String)
  | userLookup (id : String)
  | log (entry : LogEntry)
deriving DecidableEq

/-- An asynchronous handler invocation made by the POST route; the route
does not await it. -/
inductive Dispatch where
  | toMessage (e : MessagingEvent)
  | toPostback (e : MessagingEvent)
deriving DecidableEq

/-- Result of the express-json verify callback: its logs, its response
attempts, and whether it returned without throwing. -/
structure VerifyResult where
  logs : List LogEntry
  responses : List HttpResponse
  accepted : Bool
deriving DecidableEq

/-- Observable result of the POST `/webhook` route body: logs, the
`res.status(..).send(..)` attempts in order, and the handler
invocations it fired without awaiting them. -/
structure PostResult where
  logs : List LogEntry
  responses : List HttpResponse
  dispatches : List Dispatch
deriving DecidableEq

/-- Observable result of the GET `/webhook` route. -/
structure GetResult where
  logs : List LogEntry
  responses : List HttpResponse
deriving DecidableEq

/-- Trace of one event handler run: its effects in order, and the
runtime error that aborted it, if any. -/
structure HandlerTrace where
  effects : List Effect
  error : Option RuntimeError
deriving DecidableEq

/-- The external collaborators of `server.js`, abstracted: the user
database, the translation adapters, the locale-string table, and the
resolution outcome of each `send` call.  `changeLanguage` takes an
`Option String` because the source can pass it a possibly-`undefined`
value (`title.split('--language ')[1]`).  The `send` field records the
resolved outcome of a send call; per the spec the send utility resolves
(never rejects), and `server.js` ignores the resolved value. -/
structure Oracles where
  getUser : String → Option User
  addUser : String → User
  translate : String → String → String → String
  changeLanguage : User → Option String → String → String
  localeStrings : String → String → String
  send : String → Option String → Option String → Bool

/-! ## Signature verification (`express.json` verify callback, server.js:49-70) -/

/-- The verify callback of `express.json`, parameterised by the HMAC
hex-digest function `hmacHex alg secret body` (the `crypto` library) and
the `APP_SECRET`.  `signature = none` models an absent `x-hub-signature`
header; the callback throws (`accepted = false`) on a falsy header and
after a digest mismatch, after logging the signature, a label for the
request body, and responding 403. -/
def jsonVerify (hmacHex : String → String → String → String)
    (secret : String) (signature : Option String) (rawBody : String) :
    VerifyResult :=
  match signature with
  | none => ⟨[], [], false⟩
  | some sig =>
    if sig = "" then ⟨[], [], false⟩
    else if (splitOnChar '=' sig.data).get? 1 =
        some (hmacHex ⟨(splitOnChar '=' sig.data).headD []⟩ secret rawBody).data
    then ⟨[], [], true⟩
    else
      ⟨[.line "Invalid signature", .line ("Signature: " ++ sig),
        .line "Body:", .reqBody],
       [⟨403, some "Invalid signature"⟩], false⟩

/-- Modelled from the spec: the express JSON body parser (not part of
this repository) rejects a request with HTTP 403 when the verify
callback throws, and the route handler never runs. -/
def frameworkReject : HttpResponse := ⟨403, none⟩

/-! ## POST `/webhook` route (server.js:96-131) -/

/-- Per-event branch of the POST route's `forEach` body: a message
event is dispatched to `receivedMessage`, a postback event to
`receivedPostback`, and any other event is logged and answered with a
403 attempt (the `return false` of the source only leaves the current
`forEach` callback). -/
def handleEvent (e : MessagingEvent) : PostResult :=
  if e.message.isSome then ⟨[], [], [.toMessage e]⟩
  else if e.postback.isSome then ⟨[], [], [.toPostback e]⟩
  else
    ⟨[.line "Unknown/unsupported event", .line "Event:", .eventObj e],
     [⟨403, some "Unknown/unsupported event"⟩], []⟩

/-- All events of a delivery, in `entry`/`messaging` iteration order. -/
def allEvents (data : WebhookData) : List MessagingEvent :=
  (data.entry.map Entry.messaging).flatten

/-- The POST `/webhook` route body: reject non-`page` objects with 403,
otherwise run the `forEach` loops over every entry and event and then
attempt the final `200 Success` response.  Dispatches are recorded but
not awaited (fire-and-forget with respect to the HTTP response). -/
def postWebhook (data : WebhookData) : PostResult :=
  if data.object = "page" then
    let results := (allEvents data).map handleEvent
    ⟨(results.map PostResult.logs).flatten,
     (results.map PostResult.responses).flatten ++ [⟨200, some "Success"⟩],
     (results.map PostResult.dispatches).flatten⟩
  else
    ⟨[.line "Object is not a page", .line "Data:", .dataObj data],
     [⟨403, some "An error has occurred"⟩], []⟩

/-- A whole POST request: run the verify callback on the raw body; only
if it accepts, parse the JSON body (`parse`) and run the route body.
On a thrown verify error the framework 403 is attempted and the route
handler never runs. -/
def handlePost (hmacHex : String → String → String → String)
    (secret : String) (signature : Option String) (rawBody : String)
    (parse : String → WebhookData) : PostResult :=
  let v := jsonVerify hmacHex secret signature rawBody
  if v.accepted then
    let r := postWebhook (parse rawBody)
    ⟨v.logs ++ r.logs, v.responses ++ r.responses, r.dispatches⟩
  else
    ⟨v.logs, v.responses ++ [frameworkReject], []⟩

/-! ## GET `/webhook` route (server.js:78-94) -/

/-- The subscription handshake: `hub.mode`, `hub.verify_token` and
`hub.challenge` query parameters (absent = `none`). -/
def getWebhook (validationToken : String)
    (mode verifyToken challenge : Option String) : GetResult :=
  if mode = some "subscribe" ∧ verifyToken = some validationToken then
    ⟨[], [⟨200, challenge⟩]⟩
  else
    ⟨[.line "Mode/verification token doesn\x27t match", .line "Parameters:",
      .params mode verifyToken challenge],
     [⟨403, some "Mode/verification token doesn\x27t match"⟩]⟩

/-! ## Command patterns (server.js:203-204) -/

/-- Embedding of `/^(-?-?help)$/i` tested with `text.match(help)`:
an anchored whole-string match of an optional `-` or `--` then `help`,
case-insensitively. -/
def helpMatches (text : String) : Bool :=
  let l := lowerData text.data
  l = "help".data || l = "-help".data || l = "--help".data

/-- Try one candidate literal head of `/^(-?-?lang(uage)? (.+))$/i`:
succeed when the head matches case-insensitively, the remainder (the
capture group `(.+)`) is non-empty, and that remainder contains no line
terminator (which `.` never matches); the capture keeps the original
case of the text. -/
def stripCI (pat text : String) : Option String :=
  if lowerData (text.data.take pat.data.length) = pat.data ∧
      pat.data.length < text.data.length ∧
      (text.data.drop pat.data.length).all (fun c => !(isLineTerminator c)) then
    some ⟨text.data.drop pat.data.length⟩
  else none

/-- The six literal heads `-?-?lang(uage)? ` can take; at most one of
them can match a given text because their lengths and contents are
pairwise incompatible. -/
def langPats : List String :=
  ["--language ", "--lang ", "-language ", "-lang ", "language ", "lang "]

/-- Embedding of `langRegex.exec(text)[3]` for
`/^(-?-?lang(uage)? (.+))$/i`: the captured remainder when the pattern
matches the whole text, `none` otherwise. -/
def langCapture (text : String) : Option String :=
  langPats.findSome? (fun p => stripCI p text)

/-! ## Event handlers (server.js:139-226) -/

/-- `getHelp(locale)` (server.js:224-226). -/
def getHelp (O : Oracles) (locale : String) : String :=
  O.localeStrings locale "help"

/-- `await userDB.getUser(senderID) || await userDB.addUser(senderID)`:
get-or-create resolution of the user record. -/
def userOf (O : Oracles) (id : String) : User :=
  (O.getUser id).getD (O.addUser id)

/-- The two indicator calls and the user lookup that begin both
handlers (`mark_seen`, then `typing_on`, then the database lookup). -/
def handlerPrefix (senderID : String) : List Effect :=
  [.send senderID none (some "mark_seen"),
   .send senderID none (some "typing_on"),
   .userLookup senderID]

/-- `title.split('--language ')[1]` of the `change_language` postback
branch; `none` models the `undefined` second segment of a title not
containing the delimiter. -/
def extractLanguage (title : String) : Option String :=
  ((jsSplit "--language ".data title.data).get? 1).map String.mk

/-- `receivedPostback(event)` (server.js:139-173).  When the event has
no postback the source throws reading `postback.payload` before any
await; otherwise: indicators, user lookup, then the payload switch. -/
def receivedPostback (O : Oracles) (event : MessagingEvent) : HandlerTrace :=
  match event.postback with
  | none =>
    ⟨[], some (.typeError "Cannot read properties of undefined (reading payload)")⟩
  | some postback =>
    let senderID := event.sender.id
    let payload := postback.payload
    let user := userOf O senderID
    if payload = "get_started" ∨ payload = "get_help" then
      ⟨handlerPrefix senderID ++
        [.send user.psid (some (getHelp O user.locale)) none], none⟩
    else if payload = "change_language" then
      let language := extractLanguage postback.title
      let response := O.changeLanguage user language user.locale
      ⟨handlerPrefix senderID ++ [.send user.psid (some response) none], none⟩
    else
      ⟨handlerPrefix senderID ++
        [.log (.line "Unknown/unsupported payload"), .log (.line "Event:"),
         .log (.eventObj event)], none⟩

/-- `receivedMessage(event)` (server.js:181-216).  When the event has
no message the source throws reading `message.text` before any await.
Otherwise: indicators, user lookup, then the attachments check, then
the help / language / translate pattern cascade; a message with neither
text nor attachments throws a `TypeError` at `text.match(help)`. -/
def receivedMessage (O : Oracles) (event : MessagingEvent) : HandlerTrace :=
  match event.message with
  | none =>
    ⟨[], some (.typeError "Cannot read properties of undefined (reading text)")⟩
  | some message =>
    let senderID := event.sender.id
    let text := message.text
    let user := userOf O senderID
    if message.attachments then
      ⟨handlerPrefix senderID ++
        [.send senderID (some (O.localeStrings user.locale "attachments")) none],
       none⟩
    else
      match text with
      | none =>
        ⟨handlerPrefix senderID,
         some (.typeError "Cannot read properties of undefined (reading match)")⟩
      | some t =>
        let response :=
          if helpMatches t then getHelp O user.locale
          else
            match langCapture t with
            | some captured => O.changeLanguage user (some captured) user.locale
            | none => O.translate t user.language user.locale
        ⟨handlerPrefix senderID ++ [.send user.psid (some response) none], none⟩

/-! ## Process-wide last-resort logging (server.js:238-242) -/

/-- The `unhandledRejection` process handler: it only logs. -/
def unhandledRejection (err : RuntimeError) : List LogEntry :=
  [.line "Unhandled Promise rejection", .line "Error:", .errorObj err]

/-- How a fire-and-forget handler invocation settles at the process
level: a rejected handler promise reaches only the process-wide
`unhandledRejection` logger (no dispatcher awaits or catches it). -/
def settleDispatch (t : HandlerTrace) : List LogEntry :=
  match t.error with
  | some e => unhandledRejection e
  | none => []

/-! ## Spec-side pattern descriptions

Declarative readings of the spec's two command patterns, to be compared
with the regex embeddings `helpMatches` and `langCapture` above. -/

/-- The optional leading dash sequences of the spec's command patterns. -/
def dashOpt : List String := ["", "-", "--"]

/-- The two keyword spellings of the spec's language pattern. -/
def kwOpt : List String := ["language", "lang"]

/-- Spec reading of the help pattern: the whole message, lower-cased, is
an optional leading `-` or `--` followed by `help`. -/
def HelpPattern (t : String) : Prop :=
  ∃ d ∈ dashOpt, lowerData t.data = (d ++ "help").data

/-- Spec reading of the language pattern: the whole message splits into
a case-insensitive head — optional `-` or `--`, then `lang` or
`language`, then a space — and a non-empty captured remainder free of
line terminators, passed through verbatim (original case, no trimming). -/
def LangPattern (t r : String) : Prop :=
  ∃ d ∈ dashOpt, ∃ kw ∈ kwOpt, ∃ head rest : List Char,
    t.data = head ++ rest ∧ lowerData head = (d ++ kw ++ " ").data ∧
    rest ≠ [] ∧ (∀ c ∈ rest, isLineTerminator c = false) ∧ r = ⟨rest⟩

/-! ## Helper lemmas -/

lemma mk_data (s : String) : (⟨s.data⟩ : String) = s := by cases s; rfl

lemma data_inj {s t : String} : s.data = t.data ↔ s = t :=
  ⟨String.ext, fun h => h ▸ rfl⟩

lemma data_sig (alg hex : String) :
    (alg ++ "=" ++ hex).data = alg.data ++ '=' :: hex.data := by
  rw [String.data_append, String.data_append, List.append_assoc]
  rfl

lemma splitOnChar_not_mem (c : Char) (l : List Char) (h : c ∉ l) :
    splitOnChar c l = [l] := by
  induction l with
  | nil => rfl
  | cons a rest ih =>
    simp only [List.mem_cons, not_or] at h
    rw [splitOnChar, if_neg (fun e => h.1 e.symm), ih h.2]
    rfl

lemma splitOnChar_append (c : Char) (a b : List Char) (ha : c ∉ a) :
    splitOnChar c (a ++ c :: b) = a :: splitOnChar c b := by
  induction a with
  | nil => simp [splitOnChar]
  | cons x xs ih =>
    simp only [List.mem_cons, not_or] at ha
    rw [List.cons_append, splitOnChar, if_neg (fun e => ha.1 e.symm), ih ha.2]
    rfl

lemma findSome?_eq_some_mem {α β : Type} (f : α → Option β) :
    ∀ (l : List α) (b : β), l.findSome? f = some b → ∃ a ∈ l, f a = some b := by
  intro l b
  induction l with
  | nil => intro h; cases h
  | cons x xs ih =>
    intro h
    rw [List.findSome?_cons] at h
    rcases hx : f x with _ | v
    · rw [hx] at h
      obtain ⟨a, ha, hfa⟩ := ih h
      exact ⟨a, List.mem_cons_of_mem _ ha, hfa⟩
    · rw [hx] at h
      exact ⟨x, List.mem_cons_self _ _, hx.trans h⟩

lemma lowerData_length (s : List Char) : (lowerData s).length = s.length :=
  List.length_map _ _

lemma lowerData_take (s : List Char) (n : Nat) :
    lowerData (s.take n) = (lowerData s).take n := by
  simp only [lowerData, List.map_take]

lemma stripCI_iff (pat text r : String) :
    stripCI pat text = some r ↔
      ∃ head rest : List Char, text.data = head ++ rest ∧
        lowerData head = pat.data ∧ rest ≠ [] ∧
        (∀ c ∈ rest, isLineTerminator c = false) ∧ r = ⟨rest⟩ := by
  unfold stripCI
  split_ifs with hc
  · obtain ⟨h1, h2, h3⟩ := hc
    constructor
    · intro hr
      refine ⟨text.data.take pat.data.length, text.data.drop pat.data.length,
        (List.take_append_drop _ _).symm, h1, ?_, ?_, (Option.some.inj hr).symm⟩
      · intro hd
        rw [List.drop_eq_nil_iff] at hd
        omega
      · intro cc hcc
        have := List.all_eq_true.mp h3 cc hcc
        simpa using this
    · rintro ⟨head, rest, ht, hl, hne, hterm, hr⟩
      have hlen : head.length = pat.data.length := by
        have := congrArg List.length hl
        rwa [lowerData_length] at this
      have hdrop : List.drop pat.data.length text.data = rest := by
        rw [ht, ← hlen, List.drop_left]
      rw [hdrop, hr]
  · constructor
    · intro h; cases h
    · rintro ⟨head, rest, ht, hl, hne, hterm, hr⟩
      exfalso
      apply hc
      have hlen : head.length = pat.data.length := by
        have := congrArg List.length hl
        rwa [lowerData_length] at this
      refine ⟨?_, ?_, ?_⟩
      · rw [ht, ← hlen, List.take_left, hl]
      · rw [ht, List.length_append, ← hlen]
        have : 0 < rest.length := List.length_pos.mpr hne
        omega
      · rw [ht, ← hlen, List.drop_left, List.all_eq_true]
        intro x hx
        simp [hterm x hx]

lemma stripCI_take {pat text r : String} (h : stripCI pat text = some r) :
    (lowerData text.data).take pat.data.length = pat.data := by
  unfold stripCI at h
  split_ifs at h with hc
  rw [← lowerData_take]
  exact hc.1

lemma stripCI_none_of (pat text : String)
    (h : (lowerData text.data).take pat.data.length ≠ pat.data) :
    stripCI pat text = none := by
  unfold stripCI
  rw [if_neg]
  intro hc
  apply h
  rw [← lowerData_take]
  exact hc.1

lemma take_agree (L a b : List Char) (hab : a.length ≤ b.length)
    (h1 : L.take a.length = a) (h2 : L.take b.length = b) :
    b.take a.length = a := by
  rw [← h2, List.take_take, inf_of_le_left hab]
  exact h1

lemma stripCI_conflict {p t r : String} (h : stripCI p t = some r) (q : String)
    (hlen : p.data.length ≤ q.data.length)
    (hne : q.data.take p.data.length ≠ p.data) : stripCI q t = none := by
  apply stripCI_none_of
  intro hq
  exact hne (take_agree (lowerData t.data) _ _ hlen (stripCI_take h) hq)

lemma stripCI_conflict' {p t r : String} (h : stripCI p t = some r) (q : String)
    (hlen : q.data.length ≤ p.data.length)
    (hne : p.data.take q.data.length ≠ q.data) : stripCI q t = none := by
  apply stripCI_none_of
  intro hq
  exact hne (take_agree (lowerData t.data) _ _ hlen hq (stripCI_take h))

lemma helpMatches_iff (t : String) : helpMatches t = true ↔ HelpPattern t := by
  constructor
  · intro h
    have h3 : (lowerData t.data = "help".data ∨ lowerData t.data = "-help".data) ∨
        lowerData t.data = "--help".data := by
      simpa [helpMatches, Bool.or_eq_true, decide_eq_true_eq] using h
    rcases h3 with (h3 | h3) | h3
    · exact ⟨"", by decide, h3⟩
    · exact ⟨"-", by decide, h3⟩
    · exact ⟨"--", by decide, h3⟩
  · rintro ⟨d, hd, h⟩
    have hd3 : d = "" ∨ d = "-" ∨ d = "--" := by simpa [dashOpt] using hd
    rcases hd3 with h3 | h3 | h3 <;> subst h3
    · have h0 : lowerData t.data = "help".data := h
      simp [helpMatches, h0]
    · have h0 : lowerData t.data = "-help".data := h
      simp [helpMatches, h0]
    · have h0 : lowerData t.data = "--help".data := h
      simp [helpMatches, h0]

lemma langCapture_iff (t r : String) :
    langCapture t = some r ↔ LangPattern t r := by
  constructor
  · intro h
    obtain ⟨p, hp, hstrip⟩ := findSome?_eq_some_mem _ _ _ h
    obtain ⟨head, rest, ht, hl, hne, hterm, hr⟩ := (stripCI_iff p t r).mp hstrip
    have hp6 : p = "--language " ∨ p = "--lang " ∨ p = "-language " ∨
        p = "-lang " ∨ p = "language " ∨ p = "lang " := by
      simpa [langPats] using hp
    rcases hp6 with h6 | h6 | h6 | h6 | h6 | h6 <;> subst h6
    · exact ⟨"--", by decide, "language", by decide, head, rest, ht, hl, hne, hterm, hr⟩
    · exact ⟨"--", by decide, "lang", by decide, head, rest, ht, hl, hne, hterm, hr⟩
    · exact ⟨"-", by decide, "language", by decide, head, rest, ht, hl, hne, hterm, hr⟩
    · exact ⟨"-", by decide, "lang", by decide, head, rest, ht, hl, hne, hterm, hr⟩
    · exact ⟨"", by decide, "language", by decide, head, rest, ht, hl, hne, hterm, hr⟩
    · exact ⟨"", by decide, "lang", by decide, head, rest, ht, hl, hne, hterm, hr⟩
  · rintro ⟨d, hd, kw, hkw, head, rest, ht, hl, hne, hterm, hr⟩
    have hd3 : d = "" ∨ d = "-" ∨ d = "--" := by simpa [dashOpt] using hd
    have hkw2 : kw = "language" ∨ kw = "lang" := by simpa [kwOpt] using hkw
    rcases hd3 with h3 | h3 | h3 <;> subst h3 <;> rcases hkw2 with h2 | h2 <;> subst h2
    · have hstrip : stripCI "language " t = some r :=
        (stripCI_iff _ t r).mpr ⟨head, rest, ht, hl, hne, hterm, hr⟩
      have e1 : stripCI "--language " t = none :=
        stripCI_conflict hstrip _ (by decide) (by decide)
      have e2 : stripCI "--lang " t = none :=
        stripCI_conflict' hstrip _ (by decide) (by decide)
      have e3 : stripCI "-language " t = none :=
        stripCI_conflict hstrip _ (by decide) (by decide)
      have e4 : stripCI "-lang " t = none :=
        stripCI_conflict' hstrip _ (by decide) (by decide)
      simp [langCapture, langPats, List.findSome?_cons, e1, e2, e3, e4, hstrip]
    · have hstrip : stripCI "lang " t = some r :=
        (stripCI_iff _ t r).mpr ⟨head, rest, ht, hl, hne, hterm, hr⟩
      have e1 : stripCI "--language " t = none :=
        stripCI_conflict hstrip _ (by decide) (by decide)
      have e2 : stripCI "--lang " t = none :=
        stripCI_conflict hstrip _ (by decide) (by decide)
      have e3 : stripCI "-language " t = none :=
        stripCI_conflict hstrip _ (by decide) (by decide)
      have e4 : stripCI "-lang " t = none :=
        stripCI_conflict hstrip _ (by decide) (by decide)
      have e5 : stripCI "language " t = none :=
        stripCI_conflict hstrip _ (by decide) (by decide)
      simp [langCapture, langPats, List.findSome?_cons, e1, e2, e3, e4, e5, hstrip]
    · have hstrip : stripCI "-language " t = some r :=
        (stripCI_iff _ t r).mpr ⟨head, rest, ht, hl, hne, hterm, hr⟩
      have e1 : stripCI "--language " t = none :=
        stripCI_conflict hstrip _ (by decide) (by decide)
      have e2 : stripCI "--lang " t = none :=
        stripCI_conflict' hstrip _ (by decide) (by decide)
      simp [langCapture, langPats, List.findSome?_cons, e1, e2, hstrip]
    · have hstrip : stripCI "-lang " t = some r :=
        (stripCI_iff _ t r).mpr ⟨head, rest, ht, hl, hne, hterm, hr⟩
      have e1 : stripCI "--language " t = none :=
        stripCI_conflict hstrip _ (by decide) (by decide)
      have e2 : stripCI "--lang " t = none :=
        stripCI_conflict hstrip _ (by decide) (by decide)
      have e3 : stripCI "-language " t = none :=
        stripCI_conflict hstrip _ (by decide) (by decide)
      simp [langCapture, langPats, List.findSome?_cons, e1, e2, e3, hstrip]
    · have hstrip : stripCI "--language " t = some r :=
        (stripCI_iff _ t r).mpr ⟨head, rest, ht, hl, hne, hterm, hr⟩
      simp [langCapture, langPats, List.findSome?_cons, hstrip]
    · have hstrip : stripCI "--lang " t = some r :=
        (stripCI_iff _ t r).mpr ⟨head, rest, ht, hl, hne, hterm, hr⟩
      have e1 : stripCI "--language " t = none :=
        stripCI_conflict hstrip _ (by decide) (by decide)
      simp [langCapture, langPats, List.findSome?_cons, e1, hstrip]

/-- The dispatch target of an event that is a message or a postback. -/
def dispatchOf (e : MessagingEvent) : Dispatch :=
  if e.message.isSome then .toMessage e else .toPostback e

lemma handleEvent_known {e : MessagingEvent}
    (h : e.message.isSome = true ∨ e.postback.isSome = true) :
    handleEvent e = ⟨[], [], [dispatchOf e]⟩ := by
  unfold handleEvent dispatchOf
  rcases h with h | h
  · simp [h]
  · by_cases hm : e.message.isSome <;> simp [hm, h]

lemma handleEvents_known :
    ∀ es : List MessagingEvent,
    (∀ e ∈ es, e.message.isSome = true ∨ e.postback.isSome = true) →
    ((es.map handleEvent).map PostResult.logs).flatten = [] ∧
    ((es.map handleEvent).map PostResult.responses).flatten = [] ∧
    ((es.map handleEvent).map PostResult.dispatches).flatten = es.map dispatchOf := by
  intro es
  induction es with
  | nil => intro _; exact ⟨rfl, rfl, rfl⟩
  | cons e es ih =>
    intro h
    have he := handleEvent_known (h e (List.mem_cons_self _ _))
    have ht := ih (fun x hx => h x (List.mem_cons_of_mem _ hx))
    refine ⟨?_, ?_, ?_⟩
    · simp only [List.map_cons, List.flatten_cons, he, List.nil_append]
      exact ht.1
    · simp only [List.map_cons, List.flatten_cons, he, List.nil_append]
      exact ht.2.1
    · simp only [List.map_cons, List.flatten_cons, he, List.singleton_append]
      rw [ht.2.2]

lemma jsonVerify_parts (hmacHex : String → String → String → String)
    (secret rawBody alg hex : String)
    (ha : '=' ∉ alg.data) (hx : '=' ∉ hex.data) :
    jsonVerify hmacHex secret (some (alg ++ "=" ++ hex)) rawBody =
      if hex = hmacHex alg secret rawBody then ⟨[], [], true⟩
      else
        ⟨[.line "Invalid signature",
          .line ("Signature: " ++ (alg ++ "=" ++ hex)),
          .line "Body:", .reqBody],
         [⟨403, some "Invalid signature"⟩], false⟩ := by
  have hne : (alg ++ "=" ++ hex) ≠ "" := by
    intro h
    have h2 := congrArg String.data h
    rw [data_sig] at h2
    simp at h2
  have hsplit : splitOnChar '=' (alg ++ "=" ++ hex).data = [alg.data, hex.data] := by
    rw [data_sig, splitOnChar_append _ _ _ ha, splitOnChar_not_mem _ _ hx]
  simp only [jsonVerify]
  rw [if_neg hne, hsplit]
  simp only [List.get?_cons_succ, List.get?_cons_zero, List.headD, mk_data,
    Option.some.injEq]
  by_cases hcmp : hex = hmacHex alg secret rawBody
  · rw [if_pos (by rw [hcmp]), if_pos hcmp]
  · rw [if_neg (fun hd => hcmp (data_inj.mp hd)), if_neg hcmp]

/-! ## Concrete fixtures used by witnesses and counterexamples -/

/-- A deterministic stand-in for the HMAC hex-digest function. -/
def testHmac : String → String → String → String :=
  fun alg secret body => alg ++ ":" ++ secret ++ ":" ++ body

/-- A stand-in JSON parser returning a fixed delivery. -/
def testParse : String → WebhookData := fun _ => ⟨"page", []⟩

/-- Deterministic stand-ins for the external collaborators. -/
def testOracles : Oracles :=
  ⟨fun id => if id = "u" then some ⟨"p-u", "en", "de"⟩ else none,
   fun id => ⟨id, "en_US", "en"⟩,
   fun t lang locale => "T(" ++ t ++ "," ++ lang ++ "," ++ locale ++ ")",
   fun u l locale => "CL(" ++ u.psid ++ "," ++ l.getD "undefined" ++ "," ++ locale ++ ")",
   fun locale key => "L(" ++ locale ++ "," ++ key ++ ")",
   fun _ _ _ => true⟩

/-- An event that is neither a message nor a postback. -/
def unknownEvt : MessagingEvent := ⟨⟨"u1"⟩, none, none⟩

/-- An ordinary message event. -/
def siblingEvt : MessagingEvent := ⟨⟨"u2"⟩, some ⟨some "hello", false⟩, none⟩

/-- An ordinary postback event. -/
def pbEvt : MessagingEvent := ⟨⟨"u3"⟩, none, some ⟨"get_help", "Help"⟩⟩

/-- A delivery whose first event is unknown and whose second is a
message event. -/
def mixedDelivery : WebhookData := ⟨"page", [⟨[unknownEvt, siblingEvt]⟩]⟩

/-- A delivery of two well-formed events across two entries. -/
def okDelivery : WebhookData := ⟨"page", [⟨[siblingEvt]⟩, ⟨[pbEvt]⟩]⟩

/-! ## Claim theorems -/

/-- C1: for every inbound POST request whose `x-hub-signature` header is
absent, or carries a hex digest that differs byte-for-byte
(case-sensitively) from the keyed HMAC digest of the raw, unparsed body
under the application secret, the request is rejected with HTTP 403 (on
a mismatch the invalid signature and the request body are also logged),
the webhook handler never runs (no event is dispatched), and the digest
check runs on the raw body independent of JSON parsing (the whole
outcome is unchanged under any other parse function). -/
theorem C1_signature_rejection
    (hmacHex : String → String → String → String) (secret rawBody : String)
    (signature : Option String) (parse parse2 : String → WebhookData)
    (h : signature = none ∨
      ∃ alg hex : String, signature = some (alg ++ "=" ++ hex) ∧
        '=' ∉ alg.data ∧ '=' ∉ hex.data ∧ hex ≠ hmacHex alg secret rawBody) :
    (handlePost hmacHex secret signature rawBody parse).responses.head?.map
        HttpResponse.status = some 403 ∧
    (handlePost hmacHex secret signature rawBody parse).dispatches = [] ∧
    (∀ s, signature = some s →
      (handlePost hmacHex secret signature rawBody parse).logs =
        [.line "Invalid signature", .line ("Signature: " ++ s),
         .line "Body:", .reqBody]) ∧
    handlePost hmacHex secret signature rawBody parse =
      handlePost hmacHex secret signature rawBody parse2 := by
  rcases h with hnone | ⟨alg, hex, hsig, ha, hx, hcmp⟩
  · subst hnone
    refine ⟨rfl, rfl, ?_, rfl⟩
    intro s hs
    cases hs
  · subst hsig
    have hv := jsonVerify_parts hmacHex secret rawBody alg hex ha hx
    rw [if_neg hcmp] at hv
    refine ⟨?_, ?_, ?_, ?_⟩
    · simp [handlePost, hv]
    · simp [handlePost, hv]
    · intro s hs
      have hse : alg ++ "=" ++ hex = s := Option.some.inj hs
      subst hse
      simp [handlePost, hv]
    · simp [handlePost, hv]

/-- Witness for C1 at a concrete mismatching signature. -/
theorem C1_signature_rejection_witness :
    (handlePost testHmac "sec" (some ("sha1" ++ "=" ++ "bad")) "rawbody"
        testParse).responses.head?.map HttpResponse.status = some 403 ∧
    (handlePost testHmac "sec" (some ("sha1" ++ "=" ++ "bad")) "rawbody"
        testParse).logs =
      [.line "Invalid signature",
       .line ("Signature: " ++ ("sha1" ++ "=" ++ "bad")),
       .line "Body:", .reqBody] := by
  have h := C1_signature_rejection testHmac "sec" "rawbody"
    (some ("sha1" ++ "=" ++ "bad")) testParse testParse
    (Or.inr ⟨"sha1", "bad", rfl, by decide, by decide, by decide⟩)
  exact ⟨h.1, h.2.2.1 _ rfl⟩

/-- C10: the verify callback takes the HMAC algorithm name from the
client-supplied header (the substring before the first `=`), not from
configuration: for every digest function and every header of the form
`alg=hex`, the callback accepts exactly when the carried hex digest
equals the HMAC digest of the raw body under the shared secret computed
with the client-named algorithm `alg`. -/
theorem C10_client_named_algorithm
    (hmacHex : String → String → String → String)
    (secret rawBody alg hex : String)
    (ha : '=' ∉ alg.data) (hx : '=' ∉ hex.data) :
    (jsonVerify hmacHex secret (some (alg ++ "=" ++ hex)) rawBody).accepted
        = true ↔
      hex = hmacHex alg secret rawBody := by
  rw [jsonVerify_parts hmacHex secret rawBody alg hex ha hx]
  by_cases hcmp : hex = hmacHex alg secret rawBody
  · simp [hcmp]
  · simp [hcmp]

/-- Witness for C10: a client-chosen algorithm name is accepted when the
digest matches that algorithm's HMAC. -/
theorem C10_client_named_algorithm_witness :
    (jsonVerify testHmac "sec"
        (some ("whirlpool" ++ "=" ++ "whirlpool:sec:raw")) "raw").accepted
      = true :=
  (C10_client_named_algorithm testHmac "sec" "raw" "whirlpool"
    "whirlpool:sec:raw" (by decide) (by decide)).mpr (by decide)

/-- C2: for every delivery that passed signature verification: a
non-"page" top-level object is logged and answered 403 with nothing
dispatched; a "page" delivery whose events are all message or postback
events has every event of every entry dispatched and the route attempts
exactly the single response `200 Success`, whatever the number of
events; the route's result never depends on handler completion (its
dispatches are recorded un-awaited). -/
theorem C2_post_route (data : WebhookData) :
    (data.object ≠ "page" →
      postWebhook data =
        ⟨[.line "Object is not a page", .line "Data:", .dataObj data],
         [⟨403, some "An error has occurred"⟩], []⟩) ∧
    (data.object = "page" →
      (∀ e ∈ allEvents data,
        e.message.isSome = true ∨ e.postback.isSome = true) →
      postWebhook data =
        ⟨[], [⟨200, some "Success"⟩], (allEvents data).map dispatchOf⟩) := by
  constructor
  · intro hobj
    unfold postWebhook
    rw [if_neg hobj]
  · intro hobj hknown
    have h := handleEvents_known (allEvents data) hknown
    simp only [postWebhook, hobj, if_true, reduceIte, h.1, h.2.1, h.2.2,
      List.nil_append]

/-- Witness for C2 at a concrete two-entry delivery. -/
theorem C2_post_route_witness :
    postWebhook okDelivery =
      ⟨[], [⟨200, some "Success"⟩],
       [.toMessage siblingEvt, .toPostback pbEvt]⟩ := by
  have h := (C2_post_route okDelivery).2 rfl (by decide)
  rw [h]
  decide

/-- C3 (code-bug evidence): in a delivery whose first event is neither a
message nor a postback, the route logs the unknown event and attempts
the 403 response, but the `return false` of the source only leaves the
current `forEach` callback: the following sibling event is still
dispatched and the final `200 Success` response is still attempted, so
processing does not halt at the point of detection. -/
theorem C3_unknown_event_no_halt :
    postWebhook mixedDelivery =
      ⟨[.line "Unknown/unsupported event", .line "Event:", .eventObj unknownEvt],
       [⟨403, some "Unknown/unsupported event"⟩, ⟨200, some "Success"⟩],
       [.toMessage siblingEvt]⟩ := by decide

/-- C4: for every message event without attachments, the two
case-insensitive whole-message patterns agree with the spec's
descriptions (`HelpPattern`, `LangPattern`) and are tried in order with
first match winning: a help match yields the localized help text, a
language match invokes `changeLanguage` with the captured remainder
passed verbatim (the exact original-case suffix), and no match invokes
`translate(text, user.language, user.locale)`. -/
theorem C4_message_commands (O : Oracles) (event : MessagingEvent)
    (m : Message) (t : String)
    (hm : event.message = some m) (hatt : m.attachments = false)
    (htext : m.text = some t) :
    (helpMatches t = true ↔ HelpPattern t) ∧
    (∀ r, langCapture t = some r ↔ LangPattern t r) ∧
    (helpMatches t = true →
      receivedMessage O event =
        ⟨handlerPrefix event.sender.id ++
          [.send (userOf O event.sender.id).psid
            (some (getHelp O (userOf O event.sender.id).locale)) none], none⟩) ∧
    (∀ r, helpMatches t = false → langCapture t = some r →
      receivedMessage O event =
        ⟨handlerPrefix event.sender.id ++
          [.send (userOf O event.sender.id).psid
            (some (O.changeLanguage (userOf O event.sender.id) (some r)
              (userOf O event.sender.id).locale)) none], none⟩) ∧
    (helpMatches t = false → langCapture t = none →
      receivedMessage O event =
        ⟨handlerPrefix event.sender.id ++
          [.send (userOf O event.sender.id).psid
            (some (O.translate t (userOf O event.sender.id).language
              (userOf O event.sender.id).locale)) none], none⟩) := by
  refine ⟨helpMatches_iff t, fun r => langCapture_iff t r, ?_, ?_, ?_⟩
  · intro hhelp
    simp [receivedMessage, hm, hatt, htext, hhelp]
  · intro r hhelp hlang
    simp [receivedMessage, hm, hatt, htext, hhelp, hlang]
  · intro hhelp hlang
    simp [receivedMessage, hm, hatt, htext, hhelp, hlang]

/-- Witness for C4: a `--LANG fr` message invokes the language change
with the verbatim capture `fr`. -/
theorem C4_message_commands_witness :
    receivedMessage testOracles ⟨⟨"u"⟩, some ⟨some "--LANG fr", false⟩, none⟩ =
      ⟨[.send "u" none (some "mark_seen"), .send "u" none (some "typing_on"),
        .userLookup "u", .send "p-u" (some "CL(p-u,fr,en)") none], none⟩ := by
  have h := (C4_message_commands testOracles
      ⟨⟨"u"⟩, some ⟨some "--LANG fr", false⟩, none⟩
      ⟨some "--LANG fr", false⟩ "--LANG fr" rfl rfl rfl).2.2.2.1 "fr"
      (by decide) (by decide)
  rw [h]
  decide

/-- C5: for every postback event: payload `get_started` or `get_help`
responds with the localized help text; payload `change_language`
extracts the language as the second segment of the title split on the
literal `--language ` delimiter (a title containing `...--language de`
yields `de`), invokes `changeLanguage` with it and responds with its
result; any other payload only logs and sends nothing to the user. -/
theorem C5_postback_payloads (O : Oracles) (event : MessagingEvent)
    (pb : Postback) (hp : event.postback = some pb) :
    ((pb.payload = "get_started" ∨ pb.payload = "get_help") →
      receivedPostback O event =
        ⟨handlerPrefix event.sender.id ++
          [.send (userOf O event.sender.id).psid
            (some (getHelp O (userOf O event.sender.id).locale)) none], none⟩) ∧
    (pb.payload = "change_language" →
      receivedPostback O event =
        ⟨handlerPrefix event.sender.id ++
          [.send (userOf O event.sender.id).psid
            (some (O.changeLanguage (userOf O event.sender.id)
              (extractLanguage pb.title)
              (userOf O event.sender.id).locale)) none], none⟩) ∧
    (pb.payload ≠ "get_started" → pb.payload ≠ "get_help" →
      pb.payload ≠ "change_language" →
      receivedPostback O event =
        ⟨handlerPrefix event.sender.id ++
          [.log (.line "Unknown/unsupported payload"), .log (.line "Event:"),
           .log (.eventObj event)], none⟩) ∧
    extractLanguage "Change language to --language de" = some "de" := by
  refine ⟨?_, ?_, ?_, by decide⟩
  · intro hpay
    rcases hpay with hpay | hpay <;> simp [receivedPostback, hp, hpay]
  · intro hpay
    simp [receivedPostback, hp, hpay]
  · intro h1 h2 h3
    simp [receivedPostback, hp, h1, h2, h3]

/-- Witness for C5: a `change_language` postback whose title carries
`--language de` changes the language to the extracted `de`. -/
theorem C5_postback_payloads_witness :
    receivedPostback testOracles
        ⟨⟨"u"⟩, none,
         some ⟨"change_language", "Change language to --language de"⟩⟩ =
      ⟨[.send "u" none (some "mark_seen"), .send "u" none (some "typing_on"),
        .userLookup "u", .send "p-u" (some "CL(p-u,de,en)") none], none⟩ := by
  have h := (C5_postback_payloads testOracles
      ⟨⟨"u"⟩, none,
       some ⟨"change_language", "Change language to --language de"⟩⟩
      ⟨"change_language", "Change language to --language de"⟩ rfl).2.1 rfl
  rw [h]
  decide

/-- C6: for every message event carrying attachments, the handler
responds with the localized `attachments` message for the user's locale
and finishes there, whatever text the message may also carry; the
response depends only on the locale-string table, so the
help/language/translate branches can never run. -/
theorem C6_attachments_short_circuit (O : Oracles) (event : MessagingEvent)
    (m : Message) (hm : event.message = some m) (hatt : m.attachments = true) :
    receivedMessage O event =
      ⟨handlerPrefix event.sender.id ++
        [.send event.sender.id
          (some (O.localeStrings (userOf O event.sender.id).locale
            "attachments")) none], none⟩ := by
  simp [receivedMessage, hm, hatt]

/-- Witness for C6: even a `--help` text is answered with the
attachments message when attachments are present. -/
theorem C6_attachments_short_circuit_witness :
    receivedMessage testOracles ⟨⟨"u"⟩, some ⟨some "--help", true⟩, none⟩ =
      ⟨[.send "u" none (some "mark_seen"), .send "u" none (some "typing_on"),
        .userLookup "u", .send "u" (some "L(en,attachments)") none], none⟩ := by
  have h := C6_attachments_short_circuit testOracles
    ⟨⟨"u"⟩, some ⟨some "--help", true⟩, none⟩ ⟨some "--help", true⟩ rfl rfl
  rw [h]
  decide

/-- C7: for every GET `/webhook` request, `hub.mode = "subscribe"` with
a matching verify token answers 200 with the challenge verbatim; any
other combination logs the parameters and answers 403 with the fixed
error text. -/
theorem C7_get_verification (validationToken : String)
    (mode verifyToken challenge : Option String) :
    ((mode = some "subscribe" ∧ verifyToken = some validationToken) →
      getWebhook validationToken mode verifyToken challenge =
        ⟨[], [⟨200, challenge⟩]⟩) ∧
    (¬(mode = some "subscribe" ∧ verifyToken = some validationToken) →
      getWebhook validationToken mode verifyToken challenge =
        ⟨[.line "Mode/verification token doesn\x27t match",
          .line "Parameters:", .params mode verifyToken challenge],
         [⟨403, some "Mode/verification token doesn\x27t match"⟩]⟩) := by
  constructor
  · intro h
    unfold getWebhook
    rw [if_pos h]
  · intro h
    unfold getWebhook
    rw [if_neg h]

/-- Witness for C7: a successful handshake echoes the challenge. -/
theorem C7_get_verification_witness :
    getWebhook "tok" (some "subscribe") (some "tok") (some "challenge123") =
      ⟨[], [⟨200, some "challenge123"⟩]⟩ :=
  (C7_get_verification "tok" (some "subscribe") (some "tok")
    (some "challenge123")).1 ⟨rfl, rfl⟩

/-- C8: for every message or postback event, the handler sends the
`mark_seen` indicator, then the `typing_on` indicator, then performs the
user lookup — sequentially, in that order at the head of the effect
trace — and the indicator calls are best-effort: both handlers' entire
results are unchanged under any other send-outcome oracle, because the
source ignores the awaited send results (which, per the spec's send
utility, always resolve rather than reject). -/
theorem C8_indicator_calls (O : Oracles)
    (sendOutcome : String → Option String → Option String → Bool)
    (event : MessagingEvent) :
    (receivedMessage ⟨O.getUser, O.addUser, O.translate, O.changeLanguage,
        O.localeStrings, sendOutcome⟩ event = receivedMessage O event ∧
     receivedPostback ⟨O.getUser, O.addUser, O.translate, O.changeLanguage,
        O.localeStrings, sendOutcome⟩ event = receivedPostback O event) ∧
    (∀ m, event.message = some m →
      (receivedMessage O event).effects.take 3 =
        [.send event.sender.id none (some "mark_seen"),
         .send event.sender.id none (some "typing_on"),
         .userLookup event.sender.id]) ∧
    (∀ pb, event.postback = some pb →
      (receivedPostback O event).effects.take 3 =
        [.send event.sender.id none (some "mark_seen"),
         .send event.sender.id none (some "typing_on"),
         .userLookup event.sender.id]) := by
  refine ⟨⟨rfl, rfl⟩, ?_, ?_⟩
  · intro m hm
    rcases m with ⟨mt, matt⟩
    cases matt <;> rcases mt with _ | t <;>
      simp [receivedMessage, hm, handlerPrefix]
  · intro pb hpb
    simp only [receivedPostback, hpb]
    split_ifs <;> simp [handlerPrefix]

/-- Witness for C8 at a concrete message event. -/
theorem C8_indicator_calls_witness :
    (receivedMessage testOracles siblingEvt).effects.take 3 =
      [.send "u2" none (some "mark_seen"), .send "u2" none (some "typing_on"),
       .userLookup "u2"] :=
  (C8_indicator_calls testOracles (fun _ _ _ => false) siblingEvt).2.1
    ⟨some "hello", false⟩ rfl

/-- C9: a message event with neither text nor attachments performs the
two indicator calls and the user lookup, then fails with a `TypeError`
(the source calls `text.match(help)` on an undefined text); the
rejected handler promise reaches only the process-wide
`unhandledRejection` logger, and no message is ever sent to the user. -/
theorem C9_textless_message (O : Oracles) (sid : String) :
    receivedMessage O ⟨⟨sid⟩, some ⟨none, false⟩, none⟩ =
      ⟨handlerPrefix sid,
       some (.typeError
        "Cannot read properties of undefined (reading match)")⟩ ∧
    settleDispatch (receivedMessage O ⟨⟨sid⟩, some ⟨none, false⟩, none⟩) =
      unhandledRejection
        (.typeError "Cannot read properties of undefined (reading match)") ∧
    ∀ psid s act,
      Effect.send psid (some s) act ∉
        (receivedMessage O ⟨⟨sid⟩, some ⟨none, false⟩, none⟩).effects := by
  refine ⟨rfl, rfl, ?_⟩
  intro psid s act
  simp [receivedMessage, handlerPrefix]
